import Mathlib

/-!
Verification of the `mobx-url-sync` engine (two variants:
the debounced engine in `src/index.ts` and the per-field throttled
engine in the second source file).

The embedding models JavaScript values that can appear as store
properties, URLSearchParams as ordered association lists of strings,
the MobX store as a flat map from (store id, property name) to values,
and the two engine classes as explicit state-passing functions.
Exceptions thrown by the TypeScript code are modelled by returning the
final (possibly mutated) state together with an `Option RegisterError`.
-/

set_option autoImplicit false

namespace MobxUrlSync

/-- Runtime JavaScript values relevant to the engine: the three
primitive types handled by the built-in serializer, objects carrying a
constructor tag (for `instanceof` dispatch) and a payload, and
`undefined` (a missing store property). -/
inductive Value where
  | str (s : String)
  | num (n : Int)
  | bool (b : Bool)
  | obj (typeTag : String) (payload : String)
  | jsUndefined
  deriving DecidableEq, Repr

/-- `typeof v` is one of `string`, `number`, `boolean`. -/
def Value.isPrimitive : Value → Bool
  | .str _ => true
  | .num _ => true
  | .bool _ => true
  | .obj _ _ => false
  | .jsUndefined => false

/-- JavaScript `String(v)`. -/
def Value.jsString : Value → String
  | .str s => s
  | .num n => toString n
  | .bool b => if b then "true" else "false"
  | .obj _ _ => "[object Object]"
  | .jsUndefined => "undefined"

/-- `v.constructor` name, used by the throttled variant when building the
inline primitive serializer. -/
def Value.constructorTag : Value → String
  | .str _ => "String"
  | .num _ => "Number"
  | .bool _ => "Boolean"
  | .obj t _ => t
  | .jsUndefined => "undefined"

/-- JavaScript `v instanceof C` where `C` is identified by its name:
true only for objects whose constructor tag matches (primitives are not
instances of their wrapper classes). -/
def Value.instanceOf : Value → String → Bool
  | .obj t _, c => t == c
  | _, _ => false

/-! ## URLSearchParams, modelled as an ordered association list -/

/-- An ordered key/value list, the model of `URLSearchParams`. -/
abbrev Params := List (String × String)

/-- `params.get(k)`: the value of the first entry with key `k`. -/
def getParam (ps : Params) (k : String) : Option String :=
  (ps.find? (fun p => p.1 == k)).map (fun p => p.2)

/-- `params.delete(k)`: remove every entry with key `k`. -/
def deleteParam (ps : Params) (k : String) : Params :=
  ps.filter (fun p => p.1 != k)

/-- `params.set(k, v)`: replace the first entry with key `k` (removing
any later duplicates), or append if the key is absent. -/
def setParam : Params → String → String → Params
  | [], k, v => [(k, v)]
  | p :: rest, k, v =>
    if p.1 == k then (k, v) :: deleteParam rest k
    else p :: setParam rest k v

/-- `params.toString()`: `k=v` pairs joined by `&` (the traces used in
this development contain no characters needing percent-encoding). -/
def paramsToString (ps : Params) : String :=
  String.intercalate "&" (ps.map (fun p => p.1 ++ "=" ++ p.2))

/-- Split a character list on a separator, keeping empty segments. -/
def splitOnChar : List Char → Char → List (List Char)
  | [], _ => [[]]
  | c :: rest, sep =>
    if c = sep then [] :: splitOnChar rest sep
    else
      match splitOnChar rest sep with
      | [] => [[c]]
      | g :: gs => (c :: g) :: gs

/-- Parse one `k=v` segment of a query string; empty segments are
skipped, a segment with no `=` maps the whole segment to `""`, and only
the first `=` splits (later ones belong to the value). -/
def parsePair (s : List Char) : Option (String × String) :=
  if s.isEmpty then none
  else
    match splitOnChar s '=' with
    | [] => none
    | [k] => some (⟨k⟩, "")
    | k :: rest => some (⟨k⟩, String.intercalate "=" (rest.map (fun l => (⟨l⟩ : String))))

/-- `new URLSearchParams(search)`: strip one leading `?`, split on `&`,
parse each segment. -/
def parseParams (search : String) : Params :=
  let chars := search.toList
  let chars := if chars.head? = some '?' then chars.tail else chars
  if chars.isEmpty then []
  else (splitOnChar chars '&').filterMap parsePair

/-! ## The store collaborator -/

/-- All MobX stores, flattened to a map from (store id, property) to the
current value; a missing property reads as `undefined`. -/
abbrev Stores := List ((String × String) × Value)

/-- Synchronous read of `store[property]`. -/
def getStore (st : Stores) (sid prop : String) : Value :=
  ((st.find? (fun e => e.1 == (sid, prop))).map (fun e => e.2)).getD .jsUndefined

/-- Synchronous write of `store[property] = v`. -/
def setStore : Stores → String → String → Value → Stores
  | [], sid, prop, v => [((sid, prop), v)]
  | e :: rest, sid, prop, v =>
    if e.1 == (sid, prop) then ((sid, prop), v) :: rest
    else e :: setStore rest sid prop v

/-! ## Serializers -/

/-- A caller-supplied typed serializer (`Serializer<T>` in the source):
a constructor for `instanceof` dispatch plus a serialize/deserialize
pair.  `deserialize` may throw, modelled by `Except Unit`. -/
structure Serializer where
  classConstructor : String
  serialize : Value → String
  deserialize : String → Except Unit Value

/-- A resolved serialize/deserialize pair (no constructor). -/
structure SerPair where
  serialize : Value → String
  deserialize : String → Except Unit Value

/-- `getAutoSerializer` of the debounced variant: primitives get
`String(v)` / identity-as-string, otherwise the first custom serializer
whose constructor matches wins, otherwise `undefined`. -/
def getAutoSerializer (serializers : List Serializer) (val : Value) : Option SerPair :=
  if val.isPrimitive then
    some { serialize := Value.jsString, deserialize := fun s => .ok (.str s) }
  else
    (serializers.find? (fun s => val.instanceOf s.classConstructor)).map
      (fun s => { serialize := s.serialize, deserialize := s.deserialize })

/-- `getDefaultSerializer` of the throttled variant: same dispatch, but
the primitive branch also records the value's constructor. -/
def getDefaultSerializer (defaultSerializers : List Serializer) (value : Value) :
    Option Serializer :=
  if value.isPrimitive then
    some { classConstructor := value.constructorTag,
           serialize := Value.jsString,
           deserialize := fun s => .ok (.str s) }
  else
    defaultSerializers.find? (fun s => value.instanceOf s.classConstructor)

/-! ## Registration configuration and errors -/

/-- The optional `config` argument of `register` / `registerField`.  An
absent (`undefined`) entry is `none`. -/
structure RegisterConfig where
  defaultValue : Option Value := none
  serialize : Option (Value → String) := none
  deserialize : Option (String → Except Unit Value) := none

/-- The errors that can escape a registration call. -/
inductive RegisterError where
  | duplicateParameter (queryParam : String)
  | missingSerializer (property : String)
  | deserializationError
  deriving DecidableEq, Repr

/-- The shared pattern of both variants for filling missing serializer
halves: if both config halves are supplied they are used unchanged;
otherwise, when an automatic pair was found, each missing half is filled
from it; when none was found the config halves are left as they are. -/
def resolveHalves (autoSerialize : Option (Value → String))
    (autoDeserialize : Option (String → Except Unit Value))
    (cs : Option (Value → String)) (cd : Option (String → Except Unit Value)) :
    Option (Value → String) × Option (String → Except Unit Value) :=
  if cs.isSome && cd.isSome then (cs, cd)
  else
    match autoSerialize, autoDeserialize with
    | some s, some d => (some (cs.getD s), some (cd.getD d))
    | _, _ => (cs, cd)

/-! ## The debounced engine (`src/index.ts`) -/

/-- One `SyncedField` record of the debounced engine.  The `store`
reference is modelled by the store id. -/
structure SyncedField where
  store : String
  property : String
  queryParam : String
  defaultValue : Value
  serialize : Value → String
  deserialize : String → Except Unit Value

/-- The mutable state of a `MobXURLSync` instance (debounced variant):
the custom serializer table, the configured delay, the field map in
insertion order, the single pending timer (absolute fire time) and the
time of the last committed URL update (0 = never).  `intercepted`
records the (store, property) pairs on which `intercept` was called. -/
structure Engine where
  serializers : List Serializer
  debounceDelay : Nat
  fields : List SyncedField
  updateTimer : Option Nat
  lastUpdateTime : Nat
  intercepted : List (String × String)

/-- `window.location`, split into origin (scheme + host), pathname and
search (either empty or starting with `?`). -/
structure Location where
  origin : String
  pathname : String
  search : String

/-- `location.href`. -/
def Location.href (l : Location) : String := l.origin ++ l.pathname ++ l.search

/-- The world visible to the debounced engine: its own state, the
stores, the location, and the log of `history.replaceState` calls. -/
structure World where
  engine : Engine
  stores : Stores
  location : Location
  history : List String

/-- The serializer-pair resolution performed by `register`: the default
value is `config.defaultValue ?? store[property]`, and missing halves
are filled from `getAutoSerializer(defaultValue)`. -/
def resolveFor (w : World) (sid prop : String) (cfg : RegisterConfig) :
    Option (Value → String) × Option (String → Except Unit Value) :=
  let defaultVal := cfg.defaultValue.getD (getStore w.stores sid prop)
  match getAutoSerializer w.engine.serializers defaultVal with
  | some auto => resolveHalves (some auto.serialize) (some auto.deserialize)
      cfg.serialize cfg.deserialize
  | none => resolveHalves none none cfg.serialize cfg.deserialize

/-- `register` of the debounced variant.  Returns the final world and
the error thrown, if any.  Order of effects as in the source: duplicate
check, default value, serializer resolution, missing-serializer check,
hydration from the URL (deserialization failures caught and ignored),
field-map insertion, interceptor installation. -/
def register (w : World) (sid prop qp : String) (cfg : RegisterConfig) :
    World × Option RegisterError :=
  if w.engine.fields.any (fun f => f.queryParam == qp) then
    (w, some (.duplicateParameter qp))
  else
    let defaultVal := cfg.defaultValue.getD (getStore w.stores sid prop)
    match resolveFor w sid prop cfg with
    | (some ser, some de) =>
      let params := parseParams w.location.search
      let stores1 :=
        match getParam params qp with
        | some raw =>
          match de raw with
          | .ok v => setStore w.stores sid prop v
          | .error _ => w.stores
        | none => w.stores
      let field : SyncedField :=
        { store := sid, property := prop, queryParam := qp,
          defaultValue := defaultVal, serialize := ser, deserialize := de }
      ({ w with
          stores := stores1,
          engine := { w.engine with
            fields := w.engine.fields ++ [field],
            intercepted := w.engine.intercepted ++ [(sid, prop)] } }, none)
    | (_, _) => (w, some (.missingSerializer prop))

/-- The `forEach` loop of `buildQueryString`, with the
`URLSearchParams` accumulator explicit: set `queryParam` to the
serialized current value unless it equals the serialized default. -/
def buildParamsFrom : List SyncedField → Stores → Params → Params
  | [], _, acc => acc
  | f :: rest, stores, acc =>
    let str := f.serialize (getStore stores f.store f.property)
    buildParamsFrom rest stores
      (if str == f.serialize f.defaultValue then acc
       else setParam acc f.queryParam str)

/-- `buildQueryString` before rendering: run the loop on an empty
parameter set. -/
def buildParams (fields : List SyncedField) (stores : Stores) : Params :=
  buildParamsFrom fields stores []

/-- `buildQueryString` of the debounced variant. -/
def buildQueryString (fields : List SyncedField) (stores : Stores) : String :=
  paramsToString (buildParams fields stores)

/-- `href.split('?')[0]`. -/
def splitBeforeQuery (s : String) : String :=
  ⟨s.toList.takeWhile (fun c => c ≠ '?')⟩

/-- `qs ? base + '?' + qs : base`. -/
def renderUrl (base qs : String) : String :=
  if qs = "" then base else base ++ "?" ++ qs

/-- `applyUrlUpdate`: record the flush time, rebuild the query string
and call `history.replaceState` when the guard comparing the new URL
with `location.href.split('?')[0] + location.search` deems it changed. -/
def applyUrlUpdate (w : World) (now : Nat) : World :=
  let w1 : World := { w with engine := { w.engine with lastUpdateTime := now } }
  let qs := buildQueryString w1.engine.fields w1.stores
  let newUrl := renderUrl w1.location.pathname qs
  if newUrl ≠ splitBeforeQuery w1.location.href ++ w1.location.search then
    { w1 with
      location := { w1.location with search := if qs = "" then "" else "?" ++ qs },
      history := w1.history ++ [newUrl] }
  else w1

/-- `scheduleUrlUpdate`: clear any pending timer; flush immediately on
the first-ever update or when the delay has elapsed, else arm a single
timer for the remaining time. -/
def scheduleUrlUpdate (w : World) (now : Nat) : World :=
  let elapsed := now - w.engine.lastUpdateTime
  let w1 : World := { w with engine := { w.engine with updateTimer := none } }
  if w.engine.lastUpdateTime = 0 ∨ w.engine.debounceDelay ≤ elapsed then
    applyUrlUpdate w1 now
  else
    { w1 with engine := { w1.engine with
        updateTimer := some (now + (w.engine.debounceDelay - elapsed)) } }

/-- The pending timer firing: `applyUrlUpdate` at the scheduled time,
then the handle is cleared. -/
def fireTimer (w : World) : World :=
  match w.engine.updateTimer with
  | some t =>
    let w1 := applyUrlUpdate w t
    { w1 with engine := { w1.engine with updateTimer := none } }
  | none => w

/-- A property mutation as seen by the debounced engine: the store is
written, and the MobX reaction on `buildQueryString` invokes
`scheduleUrlUpdate` exactly when the computed query string changed. -/
def mutate (w : World) (sid prop : String) (v : Value) (now : Nat) : World :=
  let oldQs := buildQueryString w.engine.fields w.stores
  let w1 : World := { w with stores := setStore w.stores sid prop v }
  if buildQueryString w1.engine.fields w1.stores ≠ oldQs then
    scheduleUrlUpdate w1 now
  else w1

/-- External events driving the debounced engine after registration:
property mutations (with their wall-clock time) and the pending timer
firing. -/
inductive Event where
  | mutate (sid prop : String) (v : Value) (time : Nat)
  | fire

/-- Run a sequence of events. -/
def run : World → List Event → World
  | w, [] => w
  | w, (.mutate sid prop v t) :: es => run (mutate w sid prop v t) es
  | w, .fire :: es => run (fireTimer w) es

/-! ## The throttled engine (second source file) -/

/-- One `FieldEntry` of the throttled engine: like `SyncedField` but
with per-field scheduling state.  `lastUpdateTime = 0` models the unset
(`undefined`) timestamp, matching the JavaScript falsiness test; the
pending timer carries its absolute fire time together with the
parameter list captured by the `updateUrl` closure. -/
structure FieldEntry where
  store : String
  property : String
  queryParam : String
  defaultValue : Value
  serialize : Value → String
  deserialize : String → Except Unit Value
  updateTimer : Option (Nat × Params) := none
  lastUpdateTime : Nat := 0

/-- The state of a `MobXURLSync` instance of the throttled variant. -/
structure Engine2 where
  defaultSerializers : List Serializer
  throttleDelay : Nat
  fields : List FieldEntry
  intercepted : List (String × String)

/-- The world visible to the throttled engine. -/
structure World2 where
  engine : Engine2
  stores : Stores
  location : Location
  history : List String

/-- The serializer-pair resolution performed by `registerField`: missing
halves are filled from `getDefaultSerializer(store[property])` — the
store's current value, not the configured default value. -/
def resolveFor2 (w : World2) (sid prop : String) (cfg : RegisterConfig) :
    Option (Value → String) × Option (String → Except Unit Value) :=
  match getDefaultSerializer w.engine.defaultSerializers (getStore w.stores sid prop) with
  | some auto => resolveHalves (some auto.serialize) (some auto.deserialize)
      cfg.serialize cfg.deserialize
  | none => resolveHalves none none cfg.serialize cfg.deserialize

/-- `loadFromURLForField`: hydrate the store property from the URL.  A
deserialization failure is NOT caught here; it escapes as an error. -/
def loadFromURLForField (w : World2) (field : FieldEntry) :
    World2 × Option RegisterError :=
  let params := parseParams w.location.search
  match getParam params field.queryParam with
  | some valueStr =>
    match field.deserialize valueStr with
    | .ok v =>
      ({ w with stores := setStore w.stores field.store field.property v }, none)
    | .error _ => (w, some .deserializationError)
  | none => (w, none)

/-- The tail of `registerField` after the field entry has been put in
the map: hydrate from the URL (letting a deserialization error escape
without installing the interceptor), then install the interceptor. -/
def registerFieldFinish (w1 : World2) (sid prop : String) (field : FieldEntry) :
    World2 × Option RegisterError :=
  match loadFromURLForField w1 field with
  | (w2, some e) => (w2, some e)
  | (w2, none) =>
    ({ w2 with engine := { w2.engine with
        intercepted := w2.engine.intercepted ++ [(sid, prop)] } }, none)

/-- `registerField` of the throttled variant.  Order of effects as in
the source: duplicate check, default value, serializer resolution from
the store's current value, missing-serializer check, field-map
insertion, hydration (which may throw), interceptor installation. -/
def registerField (w : World2) (sid prop qp : String) (cfg : RegisterConfig) :
    World2 × Option RegisterError :=
  if w.engine.fields.any (fun f => f.queryParam == qp) then
    (w, some (.duplicateParameter qp))
  else
    let defaultVal :=
      match cfg.defaultValue with
      | some v => v
      | none => getStore w.stores sid prop
    match resolveFor2 w sid prop cfg with
    | (some ser, some de) =>
      let field : FieldEntry :=
        { store := sid, property := prop, queryParam := qp,
          defaultValue := defaultVal, serialize := ser, deserialize := de }
      let w1 : World2 := { w with engine := { w.engine with
        fields := w.engine.fields ++ [field] } }
      registerFieldFinish w1 sid prop field
    | (_, _) => (w, some (.missingSerializer prop))

/-- The parameter set computed inside the interceptor: clone the current
parameters (via `toString`), then delete the field's parameter when the
new value serializes like the default, else set it. -/
def computeNewParams (field : FieldEntry) (currentParams : Params) (newValue : Value) :
    Params :=
  let newParams := parseParams (paramsToString currentParams)
  let serializedValue := field.serialize newValue
  if serializedValue == field.serialize field.defaultValue then
    deleteParam newParams field.queryParam
  else
    setParam newParams field.queryParam serializedValue

/-- The `updateUrl` closure of the interceptor: clear the field's timer,
record the flush time, and `replaceState` unconditionally with the
captured parameter list. -/
def updateUrl (w : World2) (qp : String) (params : Params) (fireTime : Nat) : World2 :=
  let qs := paramsToString params
  let newUrl := w.location.pathname ++ (if qs.length ≠ 0 then "?" ++ qs else "")
  { w with
    engine := { w.engine with fields := w.engine.fields.map (fun f =>
      if f.queryParam == qp then
        { f with updateTimer := none, lastUpdateTime := fireTime } else f) },
    location := { w.location with search := if qs.length ≠ 0 then "?" ++ qs else "" },
    history := w.history ++ [newUrl] }

/-- The body of the interceptor installed by `startInterceptorForField`,
invoked with the incoming value before it is committed to the store:
skip when nothing would change; otherwise flush immediately on the
field's first-ever update or after the delay has elapsed, else
(re-)arm the field's single timer for the remaining time, capturing the
just-computed parameter list. -/
def interceptChange (w : World2) (qp : String) (newValue : Value) (now : Nat) : World2 :=
  match w.engine.fields.find? (fun f => f.queryParam == qp) with
  | none => w
  | some field =>
    let currentParams := parseParams w.location.search
    let newParams := computeNewParams field currentParams newValue
    if paramsToString newParams == paramsToString currentParams then w
    else if field.lastUpdateTime = 0 ∨
        w.engine.throttleDelay ≤ now - field.lastUpdateTime then
      updateUrl w qp newParams now
    else
      let timeRemaining := w.engine.throttleDelay - (now - field.lastUpdateTime)
      { w with engine := { w.engine with fields := w.engine.fields.map (fun f =>
          if f.queryParam == qp then
            { f with updateTimer := some (now + timeRemaining, newParams) } else f) } }

/-- A property mutation as seen by the throttled engine: the interceptor
of the field observing (store, property) runs first, then the value is
committed to the store. -/
def mutate2 (w : World2) (sid prop : String) (v : Value) (now : Nat) : World2 :=
  let w1 :=
    match w.engine.fields.find? (fun f => f.store == sid && f.property == prop) with
    | some f => interceptChange w f.queryParam v now
    | none => w
  { w1 with stores := setStore w1.stores sid prop v }

/-- A field's pending timer firing: run the captured `updateUrl` closure
at its scheduled time. -/
def fireTimer2 (w : World2) (qp : String) : World2 :=
  match w.engine.fields.find? (fun f => f.queryParam == qp) with
  | some f =>
    match f.updateTimer with
    | some (t, params) => updateUrl w qp params t
    | none => w
  | none => w

/-- External events driving the throttled engine. -/
inductive Event2 where
  | mutate (sid prop : String) (v : Value) (time : Nat)
  | fire (qp : String)

/-- Run a sequence of events on the throttled engine. -/
def run2 : World2 → List Event2 → World2
  | w, [] => w
  | w, (.mutate sid prop v t) :: es => run2 (mutate2 w sid prop v t) es
  | w, (.fire qp) :: es => run2 (fireTimer2 w qp) es

/-! ## Concrete instances used by witnesses and counterexamples -/

/-- Mutation lists for the debounced engine, as plain tuples
(store id, property, new value, time). -/
def mutEvents (muts : List (String × String × Value × Nat)) : List Event :=
  muts.map (fun m => .mutate m.1 m.2.1 m.2.2.1 m.2.2.2)

/-- A synced field using the built-in primitive serializer. -/
def strField (sid prop qp : String) (dv : Value) : SyncedField where
  store := sid
  property := prop
  queryParam := qp
  defaultValue := dv
  serialize := Value.jsString
  deserialize := fun s => .ok (.str s)

/-- A fresh debounced engine with the default 500 ms delay. -/
def emptyEngine : Engine where
  serializers := []
  debounceDelay := 500
  fields := []
  updateTimer := none
  lastUpdateTime := 0
  intercepted := []

/-- A browser location at `https://example.com/p`. -/
def baseLocation : Location where
  origin := "https://example.com"
  pathname := "/p"
  search := ""

/-- A fresh world whose URL carries `?counter=1` while the store's
`counter` property is `0`. -/
def freshWorld : World where
  engine := emptyEngine
  stores := [(("s", "counter"), Value.num 0)]
  location := { baseLocation with search := "?counter=1" }
  history := []

/-- `freshWorld` after registering `counter`: hydrated from the URL, so
the desired query string equals the current one. -/
def hydratedWorld : World := (register freshWorld "s" "counter" "counter" {}).1

/-- A debounced world in the middle of a throttle window: one field,
last flush at t = 1000, no pending timer, store matching the default. -/
def windowWorld : World where
  engine := { emptyEngine with fields := [strField "s" "counter" "counter" (Value.num 0)], lastUpdateTime := 1000 }
  stores := [(("s", "counter"), Value.str "0")]
  location := baseLocation
  history := []

/-- Two mutations of `counter` inside the window after t = 1000. -/
def windowMuts : List (String × String × Value × Nat) :=
  [("s", "counter", Value.str "5", 1100), ("s", "counter", Value.str "7", 1200)]

/-- A fresh throttled engine with the default 500 ms delay. -/
def emptyEngine2 : Engine2 where
  defaultSerializers := []
  throttleDelay := 500
  fields := []
  intercepted := []

/-- A registration config whose explicit default value is an object
with no registered serializer. -/
def mismatchConfig : RegisterConfig := { defaultValue := some (Value.obj "Widget" "z") }

/-- A throttled world whose store property `p` holds the number 5. -/
def mismatchWorld : World2 where
  engine := emptyEngine2
  stores := [(("s", "p"), Value.num 5)]
  location := baseLocation
  history := []

/-- A registration config whose caller-supplied deserializer always
throws. -/
def failConfig : RegisterConfig :=
  { serialize := some Value.jsString, deserialize := some (fun _ => .error ()) }

/-- A throttled world whose URL carries `?x=boom`, so registering `x`
with `failConfig` throws during hydration. -/
def failWorld : World2 where
  engine := emptyEngine2
  stores := [(("s", "p"), Value.num 0)]
  location := { baseLocation with search := "?x=boom" }
  history := []

/-- A throttled world whose URL carries `?x=7`. -/
def hydrate2World : World2 where
  engine := emptyEngine2
  stores := [(("s", "p"), Value.num 0)]
  location := { baseLocation with search := "?x=7" }
  history := []

/-- A debounced world whose URL carries `?x=boom`. -/
def failWorldD : World where
  engine := emptyEngine
  stores := [(("s", "p"), Value.num 0)]
  location := { baseLocation with search := "?x=boom" }
  history := []

/-- A throttled world whose store property holds an object with no
registered serializer. -/
def objWorld2 : World2 where
  engine := emptyEngine2
  stores := [(("s", "p"), Value.obj "Widget" "z")]
  location := baseLocation
  history := []

/-- A debounced world whose store property holds an object with no
registered serializer. -/
def objWorldD : World where
  engine := emptyEngine
  stores := [(("s", "p"), Value.obj "Widget" "z")]
  location := baseLocation
  history := []

/-- A throttled world with two unregistered numeric properties. -/
def twoFieldWorld0 : World2 where
  engine := emptyEngine2
  stores := [(("s", "a"), Value.num 0), (("s", "b"), Value.num 0)]
  location := baseLocation
  history := []

/-- `twoFieldWorld0` with both properties registered (`a` and `b`). -/
def twoFieldWorld : World2 :=
  (registerField (registerField twoFieldWorld0 "s" "a" "a" {}).1 "s" "b" "b" {}).1

/-- Two mutations of different fields one millisecond apart. -/
def burstEvents : List Event2 :=
  [.mutate "s" "a" (Value.num 1) 1000, .mutate "s" "b" (Value.num 2) 1001]

/-- `burstEvents` followed by two further mutations inside both fields'
throttle windows, leaving both timers armed. -/
def pendingBurstEvents : List Event2 :=
  burstEvents ++ [.mutate "s" "a" (Value.num 3) 1010, .mutate "s" "b" (Value.num 4) 1011]

/-- A throttled field entry in the middle of its window. -/
def throttledField (qp prop : String) (last : Nat) : FieldEntry where
  store := "s"
  property := prop
  queryParam := qp
  defaultValue := Value.num 0
  serialize := Value.jsString
  deserialize := fun s => .ok (.str s)
  lastUpdateTime := last

/-- A throttled world with one field whose last flush was at t = 1000. -/
def midWindowWorld2 : World2 where
  engine := { emptyEngine2 with fields := [throttledField "a" "a" 1000] }
  stores := [(("s", "a"), Value.num 0)]
  location := baseLocation
  history := []

/-! ## Basic lemmas about the association-list operations -/

theorem find?_deleteParam_of_ne (ps : Params) (k k2 : String) (h : k2 ≠ k) :
    (deleteParam ps k).find? (fun p => p.1 == k2) = ps.find? (fun p => p.1 == k2) := by
  induction ps with
  | nil => rfl
  | cons p rest ih =>
    simp only [deleteParam, List.filter_cons] at ih ⊢
    by_cases hp : p.1 = k
    · rw [if_neg (by simp [hp]), List.find?_cons_of_neg _ (by simp [hp]; exact fun hc => h hc.symm)]
      exact ih
    · rw [if_pos (by simp [hp])]
      by_cases hq : p.1 = k2
      · rw [List.find?_cons_of_pos _ (by simp [hq]), List.find?_cons_of_pos _ (by simp [hq])]
      · rw [List.find?_cons_of_neg _ (by simp [hq]), List.find?_cons_of_neg _ (by simp [hq])]
        exact ih

theorem getParam_deleteParam_self (ps : Params) (k : String) :
    getParam (deleteParam ps k) k = none := by
  simp only [getParam]
  induction ps with
  | nil => rfl
  | cons p rest ih =>
    simp only [deleteParam, List.filter_cons] at ih ⊢
    by_cases hp : p.1 = k
    · rw [if_neg (by simp [hp])]
      exact ih
    · rw [if_pos (by simp [hp]), List.find?_cons_of_neg _ (by simp [hp])]
      exact ih

theorem getParam_deleteParam_other (ps : Params) (k k2 : String) (h : k2 ≠ k) :
    getParam (deleteParam ps k) k2 = getParam ps k2 := by
  simp only [getParam]
  rw [find?_deleteParam_of_ne ps k k2 h]

theorem getParam_setParam_self (ps : Params) (k v : String) :
    getParam (setParam ps k v) k = some v := by
  induction ps with
  | nil => simp [setParam, getParam]
  | cons p rest ih =>
    simp only [setParam]
    by_cases hp : p.1 = k
    · rw [if_pos (by simp [hp])]
      simp [getParam]
    · rw [if_neg (by simp [hp])]
      simp only [getParam] at ih ⊢
      rw [List.find?_cons_of_neg _ (by simp [hp])]
      exact ih

theorem getParam_setParam_other (ps : Params) (k v k2 : String) (h : k2 ≠ k) :
    getParam (setParam ps k v) k2 = getParam ps k2 := by
  induction ps with
  | nil =>
    simp only [setParam, getParam, List.find?]
    have : ((k, v).1 == k2) = false := by simp; exact fun hc => h hc.symm
    simp [this]
  | cons p rest ih =>
    simp only [setParam]
    simp only [getParam] at ih ⊢
    by_cases hp : p.1 = k
    · rw [if_pos (by simp [hp])]
      rw [List.find?_cons_of_neg _ (by simp; exact fun hc => h hc.symm),
        find?_deleteParam_of_ne rest k k2 h,
        List.find?_cons_of_neg _ (by simp [hp]; exact fun hc => h hc.symm)]
    · rw [if_neg (by simp [hp])]
      by_cases hq : p.1 = k2
      · rw [List.find?_cons_of_pos _ (by simp [hq]), List.find?_cons_of_pos _ (by simp [hq])]
      · rw [List.find?_cons_of_neg _ (by simp [hq]), List.find?_cons_of_neg _ (by simp [hq])]
        exact ih

theorem getStore_setStore_self (st : Stores) (sid prop : String) (v : Value) :
    getStore (setStore st sid prop v) sid prop = v := by
  induction st with
  | nil => simp [setStore, getStore]
  | cons e rest ih =>
    simp only [setStore]
    by_cases he : e.1 = (sid, prop)
    · rw [if_pos (by simp [he])]
      simp [getStore]
    · rw [if_neg (by simp [he])]
      simp only [getStore] at ih ⊢
      rw [List.find?_cons_of_neg _ (by simp [he])]
      exact ih

theorem getStore_setStore_other (st : Stores) (sid prop sid2 prop2 : String) (v : Value)
    (h : (sid2, prop2) ≠ (sid, prop)) :
    getStore (setStore st sid prop v) sid2 prop2 = getStore st sid2 prop2 := by
  induction st with
  | nil =>
    simp only [setStore, getStore, List.find?]
    have : (((sid, prop), v).1 == (sid2, prop2)) = false := by
      simp; exact fun h1 h2 => h (by rw [h1, h2])
    simp [this]
  | cons e rest ih =>
    simp only [setStore]
    simp only [getStore] at ih ⊢
    by_cases he : e.1 = (sid, prop)
    · rw [if_pos (by simp [he])]
      rw [List.find?_cons_of_neg _ (by simp; exact fun h1 h2 => h (by rw [h1, h2])),
        List.find?_cons_of_neg _ (by rw [he]; simp; exact fun h1 h2 => h (by rw [h1, h2]))]
    · rw [if_neg (by simp [he])]
      by_cases hq : e.1 = (sid2, prop2)
      · rw [List.find?_cons_of_pos _ (by simp [hq]), List.find?_cons_of_pos _ (by simp [hq])]
      · rw [List.find?_cons_of_neg _ (by simp [hq]), List.find?_cons_of_neg _ (by simp [hq])]
        exact ih

/-! ## Helper lemmas -/

theorem resolveHalves_isSome (s : Value → String) (d : String → Except Unit Value)
    (cs : Option (Value → String)) (cd : Option (String → Except Unit Value)) :
    (resolveHalves (some s) (some d) cs cd).1.isSome = true ∧
    (resolveHalves (some s) (some d) cs cd).2.isSome = true := by
  unfold resolveHalves
  cases cs <;> cases cd <;> simp

theorem resolveHalves_both_given (a1 : Option (Value → String))
    (a2 : Option (String → Except Unit Value))
    (s : Value → String) (d : String → Except Unit Value) :
    resolveHalves a1 a2 (some s) (some d) = (some s, some d) := by
  unfold resolveHalves
  simp

theorem resolveHalves_none_auto (cs : Option (Value → String))
    (cd : Option (String → Except Unit Value)) :
    resolveHalves none none cs cd = (cs, cd) := by
  unfold resolveHalves
  cases cs <;> cases cd <;> simp

theorem getParam_buildParamsFrom_of_not_mem (fields : List SyncedField) (stores : Stores)
    (acc : Params) (qp : String) (h : ∀ g ∈ fields, g.queryParam ≠ qp) :
    getParam (buildParamsFrom fields stores acc) qp = getParam acc qp := by
  induction fields generalizing acc with
  | nil => rfl
  | cons g rest ih =>
    have hg : g.queryParam ≠ qp := h g (List.mem_cons_self g rest)
    have hrest : ∀ g2 ∈ rest, g2.queryParam ≠ qp :=
      fun g2 hm => h g2 (List.mem_cons_of_mem g hm)
    unfold buildParamsFrom
    rw [ih _ hrest]
    by_cases hd : g.serialize (getStore stores g.store g.property) = g.serialize g.defaultValue
    · rw [if_pos (by simp [hd])]
    · rw [if_neg (by simp [hd]), getParam_setParam_other _ _ _ _ (Ne.symm hg)]

theorem getParam_buildParamsFrom (fields : List SyncedField) (stores : Stores)
    (acc : Params) (f : SyncedField) (hmem : f ∈ fields)
    (hnodup : (fields.map (fun g => g.queryParam)).Nodup)
    (hacc : getParam acc f.queryParam = none) :
    getParam (buildParamsFrom fields stores acc) f.queryParam =
      (if f.serialize (getStore stores f.store f.property) == f.serialize f.defaultValue
       then none
       else some (f.serialize (getStore stores f.store f.property))) := by
  induction fields generalizing acc with
  | nil => cases hmem
  | cons g rest ih =>
    simp only [List.map_cons, List.nodup_cons] at hnodup
    rcases List.mem_cons.mp hmem with heq | htail
    · subst heq
      have hrest : ∀ g2 ∈ rest, g2.queryParam ≠ f.queryParam := by
        intro g2 hm hc
        exact hnodup.1 (by rw [← hc]; exact List.mem_map_of_mem (fun g => g.queryParam) hm)
      unfold buildParamsFrom
      rw [getParam_buildParamsFrom_of_not_mem _ _ _ _ hrest]
      by_cases hd : f.serialize (getStore stores f.store f.property) = f.serialize f.defaultValue
      · rw [if_pos (by simp [hd]), if_pos (by simp [hd]), hacc]
      · rw [if_neg (by simp [hd]), if_neg (by simp [hd]), getParam_setParam_self]
    · have hg : g.queryParam ≠ f.queryParam := by
        intro hc
        exact hnodup.1 (by rw [hc]; exact List.mem_map_of_mem (fun g => g.queryParam) htail)
      unfold buildParamsFrom
      refine ih _ htail hnodup.2 ?_
      by_cases hd : g.serialize (getStore stores g.store g.property) = g.serialize g.defaultValue
      · rw [if_pos (by simp [hd])]
        exact hacc
      · rw [if_neg (by simp [hd]), getParam_setParam_other _ _ _ _ (Ne.symm hg)]
        exact hacc

theorem getAutoSerializer_primitive (serializers : List Serializer) (v : Value)
    (h : v.isPrimitive = true) :
    getAutoSerializer serializers v =
      some { serialize := Value.jsString, deserialize := fun s => .ok (.str s) } := by
  unfold getAutoSerializer
  rw [if_pos h]

theorem getDefaultSerializer_primitive (serializers : List Serializer) (v : Value)
    (h : v.isPrimitive = true) :
    getDefaultSerializer serializers v =
      some { classConstructor := v.constructorTag,
             serialize := Value.jsString, deserialize := fun s => .ok (.str s) } := by
  unfold getDefaultSerializer
  rw [if_pos h]

theorem register_dup_eq (w : World) (sid prop qp : String) (cfg : RegisterConfig)
    (h : w.engine.fields.any (fun f => f.queryParam == qp) = true) :
    register w sid prop qp cfg = (w, some (.duplicateParameter qp)) := by
  unfold register
  rw [if_pos h]

theorem registerField_dup_eq (w : World2) (sid prop qp : String) (cfg : RegisterConfig)
    (h : w.engine.fields.any (fun f => f.queryParam == qp) = true) :
    registerField w sid prop qp cfg = (w, some (.duplicateParameter qp)) := by
  unfold registerField
  rw [if_pos h]

theorem registerFieldFinish_shape (w1 : World2) (sid prop : String) (f : FieldEntry) :
    (registerFieldFinish w1 sid prop f).2 = none ∨
    (registerFieldFinish w1 sid prop f).2 = some .deserializationError := by
  unfold registerFieldFinish loadFromURLForField
  rcases hurl : getParam (parseParams w1.location.search) f.queryParam with _ | raw
  · simp [hurl]
  · rcases hde : f.deserialize raw with e | v
    · simp [hurl, hde]
    · simp [hurl, hde]

theorem register_error_shape (w : World) (sid prop qp : String) (cfg : RegisterConfig) :
    (register w sid prop qp cfg).2 = none ∨
    (register w sid prop qp cfg).2 = some (.duplicateParameter qp) ∨
    (register w sid prop qp cfg).2 = some (.missingSerializer prop) := by
  by_cases hdup : w.engine.fields.any (fun f => f.queryParam == qp) = true
  · rw [register_dup_eq w sid prop qp cfg hdup]
    right; left; rfl
  · simp only [register, if_neg hdup]
    rcases hres : resolveFor w sid prop cfg with ⟨cs, cd⟩
    cases cs with
    | none => cases cd <;> simp
    | some ser =>
      cases cd with
      | none => simp
      | some de => simp

theorem registerField_error_shape (w : World2) (sid prop qp : String) (cfg : RegisterConfig) :
    (registerField w sid prop qp cfg).2 = none ∨
    (registerField w sid prop qp cfg).2 = some (.duplicateParameter qp) ∨
    (registerField w sid prop qp cfg).2 = some (.missingSerializer prop) ∨
    (registerField w sid prop qp cfg).2 = some .deserializationError := by
  by_cases hdup : w.engine.fields.any (fun f => f.queryParam == qp) = true
  · rw [registerField_dup_eq w sid prop qp cfg hdup]
    right; left; rfl
  · simp only [registerField, if_neg hdup]
    rcases hres : resolveFor2 w sid prop cfg with ⟨cs, cd⟩
    cases cs with
    | none => cases cd <;> simp
    | some ser =>
      cases cd with
      | none => simp
      | some de =>
        simp only []
        exact (registerFieldFinish_shape _ sid prop _).imp id
          (fun h => Or.inr (Or.inr h))

theorem register_success_eq (w : World) (sid prop qp : String) (cfg : RegisterConfig)
    (ser : Value → String) (de : String → Except Unit Value)
    (hdup : ¬ (w.engine.fields.any (fun f => f.queryParam == qp)) = true)
    (hres : resolveFor w sid prop cfg = (some ser, some de)) :
    register w sid prop qp cfg =
      ({ w with
          stores :=
            match getParam (parseParams w.location.search) qp with
            | some raw =>
              match de raw with
              | .ok v => setStore w.stores sid prop v
              | .error _ => w.stores
            | none => w.stores,
          engine := { w.engine with
            fields := w.engine.fields ++
              [{ store := sid, property := prop, queryParam := qp,
                 defaultValue := cfg.defaultValue.getD (getStore w.stores sid prop),
                 serialize := ser, deserialize := de }],
            intercepted := w.engine.intercepted ++ [(sid, prop)] } }, none) := by
  unfold register
  rw [if_neg hdup, hres]

theorem registerField_success_eq (w : World2) (sid prop qp : String) (cfg : RegisterConfig)
    (ser : Value → String) (de : String → Except Unit Value)
    (hdup : ¬ (w.engine.fields.any (fun f => f.queryParam == qp)) = true)
    (hres : resolveFor2 w sid prop cfg = (some ser, some de)) :
    registerField w sid prop qp cfg =
      registerFieldFinish
        { w with engine := { w.engine with fields := w.engine.fields ++
            [{ store := sid, property := prop, queryParam := qp,
               defaultValue :=
                 match cfg.defaultValue with
                 | some v => v
                 | none => getStore w.stores sid prop,
               serialize := ser, deserialize := de }] } }
        sid prop
        { store := sid, property := prop, queryParam := qp,
          defaultValue :=
            match cfg.defaultValue with
            | some v => v
            | none => getStore w.stores sid prop,
          serialize := ser, deserialize := de } := by
  unfold registerField
  rw [if_neg hdup, hres]

theorem registerFieldFinish_hydrate_ok (w1 : World2) (sid prop : String) (f : FieldEntry)
    (raw : String) (v : Value)
    (hurl : getParam (parseParams w1.location.search) f.queryParam = some raw)
    (hde : f.deserialize raw = .ok v) :
    registerFieldFinish w1 sid prop f =
      ({ w1 with
          stores := setStore w1.stores f.store f.property v,
          engine := { w1.engine with
            intercepted := w1.engine.intercepted ++ [(sid, prop)] } }, none) := by
  unfold registerFieldFinish loadFromURLForField
  simp only [hurl, hde]

theorem registerFieldFinish_hydrate_error (w1 : World2) (sid prop : String) (f : FieldEntry)
    (raw : String)
    (hurl : getParam (parseParams w1.location.search) f.queryParam = some raw)
    (hde : f.deserialize raw = .error ()) :
    registerFieldFinish w1 sid prop f = (w1, some .deserializationError) := by
  unfold registerFieldFinish loadFromURLForField
  simp only [hurl, hde]

theorem registerFieldFinish_no_param (w1 : World2) (sid prop : String) (f : FieldEntry)
    (hurl : getParam (parseParams w1.location.search) f.queryParam = none) :
    registerFieldFinish w1 sid prop f =
      ({ w1 with engine := { w1.engine with
          intercepted := w1.engine.intercepted ++ [(sid, prop)] } }, none) := by
  unfold registerFieldFinish loadFromURLForField
  simp only [hurl]

/-! ## Claim theorems -/

/-- Claim C3: in every engine state where the query parameter is
already bound, a second registration with the same parameter raises the
duplicate-parameter error synchronously, and the whole engine state —
in particular the first registration's binding with its store,
property, serializers and default value — is returned unchanged.  This
holds in both variants. -/
theorem c3_duplicate_rejected :
    (∀ (w : World) (sid prop qp : String) (cfg : RegisterConfig),
      w.engine.fields.any (fun f => f.queryParam == qp) = true →
      register w sid prop qp cfg = (w, some (.duplicateParameter qp)))
  ∧ (∀ (w : World2) (sid prop qp : String) (cfg : RegisterConfig),
      w.engine.fields.any (fun f => f.queryParam == qp) = true →
      registerField w sid prop qp cfg = (w, some (.duplicateParameter qp))) :=
  ⟨register_dup_eq, registerField_dup_eq⟩

/-- Witness for C3 at concrete inputs: re-registering `counter` on the
already-hydrated world, and re-registering `a` on a throttled world. -/
theorem c3_duplicate_rejected_witness :
    register hydratedWorld "s2" "other" "counter" {} =
      (hydratedWorld, some (.duplicateParameter "counter"))
    ∧ registerField (registerField twoFieldWorld0 "s" "a" "a" {}).1 "s" "a" "a" {} =
      ((registerField twoFieldWorld0 "s" "a" "a" {}).1, some (.duplicateParameter "a")) :=
  ⟨c3_duplicate_rejected.1 hydratedWorld "s2" "other" "counter" {} (by decide),
   c3_duplicate_rejected.2 (registerField twoFieldWorld0 "s" "a" "a" {}).1 "s" "a" "a" {}
     (by decide)⟩

/-- Claim C9: when the value used for serializer resolution is a
primitive (string, number or boolean), the automatic lookup always
succeeds, returning `String(v)` as serializer and the
identity-on-string deserializer, in both variants; consequently no
registration whose resolution value is primitive can ever return the
missing-serializer error, even with no config serializers supplied. -/
theorem c9_primitive_serializer_total :
    (∀ (serializers : List Serializer) (v : Value), v.isPrimitive = true →
      getAutoSerializer serializers v =
        some { serialize := Value.jsString, deserialize := fun s => .ok (.str s) })
  ∧ (∀ (serializers : List Serializer) (v : Value), v.isPrimitive = true →
      getDefaultSerializer serializers v =
        some { classConstructor := v.constructorTag,
               serialize := Value.jsString, deserialize := fun s => .ok (.str s) })
  ∧ (∀ (w : World) (sid prop qp p2 : String) (cfg : RegisterConfig),
      (cfg.defaultValue.getD (getStore w.stores sid prop)).isPrimitive = true →
      (register w sid prop qp cfg).2 ≠ some (.missingSerializer p2))
  ∧ (∀ (w : World2) (sid prop qp p2 : String) (cfg : RegisterConfig),
      (getStore w.stores sid prop).isPrimitive = true →
      (registerField w sid prop qp cfg).2 ≠ some (.missingSerializer p2)) := by
  refine ⟨getAutoSerializer_primitive, getDefaultSerializer_primitive, ?_, ?_⟩
  · intro w sid prop qp p2 cfg hprim heq
    by_cases hdup : w.engine.fields.any (fun f => f.queryParam == qp) = true
    · rw [register_dup_eq w sid prop qp cfg hdup] at heq
      simp at heq
    · have hauto := getAutoSerializer_primitive w.engine.serializers _ hprim
      have hres : resolveFor w sid prop cfg =
          (some (cfg.serialize.getD Value.jsString),
           some (cfg.deserialize.getD (fun s => .ok (.str s)))) := by
        simp only [resolveFor]
        rw [hauto]
        unfold resolveHalves
        rcases hcs : cfg.serialize with _ | s <;> rcases hcd : cfg.deserialize with _ | d <;> simp
      rw [register_success_eq w sid prop qp cfg _ _ hdup hres] at heq
      simp at heq
  · intro w sid prop qp p2 cfg hprim heq
    by_cases hdup : w.engine.fields.any (fun f => f.queryParam == qp) = true
    · rw [registerField_dup_eq w sid prop qp cfg hdup] at heq
      simp at heq
    · have hauto := getDefaultSerializer_primitive w.engine.defaultSerializers _ hprim
      have hres : resolveFor2 w sid prop cfg =
          (some (cfg.serialize.getD Value.jsString),
           some (cfg.deserialize.getD (fun s => .ok (.str s)))) := by
        simp only [resolveFor2]
        rw [hauto]
        unfold resolveHalves
        rcases hcs : cfg.serialize with _ | s <;> rcases hcd : cfg.deserialize with _ | d <;> simp
      rw [registerField_success_eq w sid prop qp cfg _ _ hdup hres] at heq
      rcases registerFieldFinish_shape
          { w with engine := { w.engine with fields := w.engine.fields ++
              [{ store := sid, property := prop, queryParam := qp,
                 defaultValue :=
                   match cfg.defaultValue with
                   | some v => v
                   | none => getStore w.stores sid prop,
                 serialize := cfg.serialize.getD Value.jsString,
                 deserialize := cfg.deserialize.getD (fun s => .ok (.str s)) }] } }
          sid prop
          { store := sid, property := prop, queryParam := qp,
            defaultValue :=
              match cfg.defaultValue with
              | some v => v
              | none => getStore w.stores sid prop,
            serialize := cfg.serialize.getD Value.jsString,
            deserialize := cfg.deserialize.getD (fun s => .ok (.str s)) } with h | h
      · rw [h] at heq
        exact Option.noConfusion heq
      · rw [h] at heq
        simp at heq

/-- Witness for C9 at concrete inputs: a number, a boolean, and two
registrations with primitive resolution values. -/
theorem c9_primitive_serializer_total_witness :
    getAutoSerializer [] (Value.num 3) =
      some { serialize := Value.jsString, deserialize := fun s => .ok (.str s) }
    ∧ getDefaultSerializer [] (Value.bool true) =
      some { classConstructor := (Value.bool true).constructorTag,
             serialize := Value.jsString, deserialize := fun s => .ok (.str s) }
    ∧ (register freshWorld "s" "counter" "q2" {}).2 ≠ some (.missingSerializer "counter")
    ∧ (registerField mismatchWorld "s" "p" "q" {}).2 ≠ some (.missingSerializer "p") :=
  ⟨c9_primitive_serializer_total.1 [] (Value.num 3) rfl,
   c9_primitive_serializer_total.2.1 [] (Value.bool true) rfl,
   c9_primitive_serializer_total.2.2.1 freshWorld "s" "counter" "q2" "counter" {} (by decide),
   c9_primitive_serializer_total.2.2.2 mismatchWorld "s" "p" "q" "p" {} (by decide)⟩

theorem applyUrlUpdate_write (w : World) (now : Nat)
    (h : renderUrl w.location.pathname (buildQueryString w.engine.fields w.stores)
         ≠ splitBeforeQuery w.location.href ++ w.location.search) :
    applyUrlUpdate w now =
      { w with
        engine := { w.engine with lastUpdateTime := now },
        location := { w.location with search :=
          (if buildQueryString w.engine.fields w.stores = "" then ""
           else "?" ++ buildQueryString w.engine.fields w.stores) },
        history := w.history ++
          [renderUrl w.location.pathname (buildQueryString w.engine.fields w.stores)] } := by
  simp only [applyUrlUpdate]
  split
  · rfl
  · next hcond => exact (hcond h).elim

theorem applyUrlUpdate_skip (w : World) (now : Nat)
    (h : renderUrl w.location.pathname (buildQueryString w.engine.fields w.stores)
         = splitBeforeQuery w.location.href ++ w.location.search) :
    applyUrlUpdate w now = { w with engine := { w.engine with lastUpdateTime := now } } := by
  simp only [applyUrlUpdate]
  split
  · next hcond => exact (hcond h).elim
  · rfl

/-- Claim C2: in the debounced variant the rebuilt parameter set binds a
field's query parameter to its serialized current value exactly when
that value differs, as a string, from the serialized default; in the
throttled variant the parameter set computed by the interceptor does
the same for the changed field (deleting the parameter even when it was
present before); and a flush replaces the URL's search string with the
rendering of the freshly built parameter set, so an elided parameter is
absent after the flush. -/
theorem c2_default_elision :
    (∀ (fields : List SyncedField) (stores : Stores) (f : SyncedField),
      f ∈ fields → (fields.map (fun g => g.queryParam)).Nodup →
      getParam (buildParams fields stores) f.queryParam =
        (if f.serialize (getStore stores f.store f.property) == f.serialize f.defaultValue
         then none
         else some (f.serialize (getStore stores f.store f.property))))
  ∧ (∀ (field : FieldEntry) (currentParams : Params) (v : Value),
      getParam (computeNewParams field currentParams v) field.queryParam =
        (if field.serialize v == field.serialize field.defaultValue
         then none
         else some (field.serialize v)))
  ∧ (∀ (w : World) (now : Nat),
      (applyUrlUpdate w now).history ≠ w.history →
      (applyUrlUpdate w now).location.search =
        (if buildQueryString w.engine.fields w.stores = "" then ""
         else "?" ++ buildQueryString w.engine.fields w.stores)) := by
  refine ⟨?_, ?_, ?_⟩
  · intro fields stores f hmem hnodup
    exact getParam_buildParamsFrom fields stores [] f hmem hnodup rfl
  · intro field currentParams v
    unfold computeNewParams
    by_cases hd : field.serialize v = field.serialize field.defaultValue
    · rw [if_pos (by simp [hd]), if_pos (by simp [hd])]
      exact getParam_deleteParam_self _ _
    · rw [if_neg (by simp [hd]), if_neg (by simp [hd])]
      exact getParam_setParam_self _ _ _
  · intro w now hne
    by_cases hg : renderUrl w.location.pathname (buildQueryString w.engine.fields w.stores)
        = splitBeforeQuery w.location.href ++ w.location.search
    · rw [applyUrlUpdate_skip w now hg] at hne
      exact (hne rfl).elim
    · rw [applyUrlUpdate_write w now hg]

/-- Witness for C2 at concrete inputs: a non-default value is included,
a default-valued change removes a previously present parameter, and the
flushed URL carries the rebuilt query string. -/
theorem c2_default_elision_witness :
    getParam (buildParams [strField "s" "counter" "counter" (Value.num 0)]
        [(("s", "counter"), Value.str "5")])
        (strField "s" "counter" "counter" (Value.num 0)).queryParam = some "5"
    ∧ getParam (computeNewParams (throttledField "a" "a" 1000) [("a", "7")] (Value.num 0))
        (throttledField "a" "a" 1000).queryParam = none
    ∧ (applyUrlUpdate hydratedWorld 1000).location.search = "?counter=1" := by
  refine ⟨?_, ?_, ?_⟩
  · have h := c2_default_elision.1 [strField "s" "counter" "counter" (Value.num 0)]
      [(("s", "counter"), Value.str "5")] (strField "s" "counter" "counter" (Value.num 0))
      (List.mem_cons_self _ _) (by decide)
    rw [h]
    decide
  · have h := c2_default_elision.2.1 (throttledField "a" "a" 1000) [("a", "7")] (Value.num 0)
    rw [h]
    decide
  · have h := c2_default_elision.2.2 hydratedWorld 1000 (by decide)
    rw [h]
    rfl

/-- Claim C1: for every registration that succeeds while the current
URL query string contains the field's query parameter, and whose
resolved deserializer accepts the raw value, both variants set
`store[property]` to the deserialized value before returning — so the
URL-supplied value overrides whatever initial value the property held. -/
theorem c1_hydration_precedence :
    (∀ (w : World) (sid prop qp : String) (cfg : RegisterConfig)
       (ser : Value → String) (de : String → Except Unit Value) (raw : String) (v : Value),
      w.engine.fields.any (fun f => f.queryParam == qp) = false →
      resolveFor w sid prop cfg = (some ser, some de) →
      getParam (parseParams w.location.search) qp = some raw →
      de raw = .ok v →
      (register w sid prop qp cfg).2 = none ∧
      getStore (register w sid prop qp cfg).1.stores sid prop = v)
  ∧ (∀ (w : World2) (sid prop qp : String) (cfg : RegisterConfig)
       (ser : Value → String) (de : String → Except Unit Value) (raw : String) (v : Value),
      w.engine.fields.any (fun f => f.queryParam == qp) = false →
      resolveFor2 w sid prop cfg = (some ser, some de) →
      getParam (parseParams w.location.search) qp = some raw →
      de raw = .ok v →
      (registerField w sid prop qp cfg).2 = none ∧
      getStore (registerField w sid prop qp cfg).1.stores sid prop = v) := by
  constructor
  · intro w sid prop qp cfg ser de raw v hdup hres hurl hde
    rw [register_success_eq w sid prop qp cfg ser de (by simp [hdup]) hres]
    refine ⟨rfl, ?_⟩
    simp only [hurl, hde]
    exact getStore_setStore_self w.stores sid prop v
  · intro w sid prop qp cfg ser de raw v hdup hres hurl hde
    rw [registerField_success_eq w sid prop qp cfg ser de (by simp [hdup]) hres]
    rw [registerFieldFinish_hydrate_ok _ sid prop _ raw v hurl hde]
    refine ⟨rfl, ?_⟩
    exact getStore_setStore_self w.stores sid prop v

/-- Witness for C1 at concrete inputs: hydrating `counter` from
`?counter=1` in the debounced variant and `p` from `?x=7` in the
throttled one; both stores initially hold the number 0 and end holding
the URL-supplied string. -/
theorem c1_hydration_precedence_witness :
    ((register freshWorld "s" "counter" "counter" {}).2 = none ∧
      getStore (register freshWorld "s" "counter" "counter" {}).1.stores "s" "counter" =
        Value.str "1")
    ∧ ((registerField hydrate2World "s" "p" "x" {}).2 = none ∧
      getStore (registerField hydrate2World "s" "p" "x" {}).1.stores "s" "p" =
        Value.str "7") :=
  ⟨c1_hydration_precedence.1 freshWorld "s" "counter" "counter" {} Value.jsString
      (fun s => .ok (.str s)) "1" (Value.str "1") rfl rfl rfl rfl,
   c1_hydration_precedence.2 hydrate2World "s" "p" "x" {} Value.jsString
      (fun s => .ok (.str s)) "7" (Value.str "7") rfl rfl rfl rfl⟩

theorem register_missing_eq (w : World) (sid prop qp : String) (cfg : RegisterConfig)
    (cs : Option (Value → String)) (cd : Option (String → Except Unit Value))
    (hdup : ¬ (w.engine.fields.any (fun f => f.queryParam == qp)) = true)
    (hres : resolveFor w sid prop cfg = (cs, cd))
    (hnone : cs = none ∨ cd = none) :
    register w sid prop qp cfg = (w, some (.missingSerializer prop)) := by
  unfold register
  rw [if_neg hdup, hres]
  rcases hnone with h1 | h1
  · subst h1
    cases cd <;> rfl
  · subst h1
    cases cs <;> rfl

theorem registerField_missing_eq (w : World2) (sid prop qp : String) (cfg : RegisterConfig)
    (cs : Option (Value → String)) (cd : Option (String → Except Unit Value))
    (hdup : ¬ (w.engine.fields.any (fun f => f.queryParam == qp)) = true)
    (hres : resolveFor2 w sid prop cfg = (cs, cd))
    (hnone : cs = none ∨ cd = none) :
    registerField w sid prop qp cfg = (w, some (.missingSerializer prop)) := by
  unfold registerField
  rw [if_neg hdup, hres]
  rcases hnone with h1 | h1
  · subst h1
    cases cd <;> rfl
  · subst h1
    cases cs <;> rfl

/-- Counterexample to C5 as stated: in the throttled variant the
hydration deserialization error is not caught inside the registration
call — `registerField` propagates it to the caller. -/
theorem c5_counterexample :
    (registerField failWorld "s" "p" "x" failConfig).2 = some .deserializationError := rfl

/-- Claim C5, amended: when the resolved deserializer throws on the
URL-supplied raw value, the debounced variant's `register` catches and
discards the error — it returns normally and the store keeps its
pre-hydration value — while the throttled variant's `registerField`
propagates the error to the caller (the store still keeps its
pre-hydration value). -/
theorem c5_hydration_error_policy :
    (∀ (w : World) (sid prop qp : String) (cfg : RegisterConfig)
       (ser : Value → String) (de : String → Except Unit Value) (raw : String),
      w.engine.fields.any (fun f => f.queryParam == qp) = false →
      resolveFor w sid prop cfg = (some ser, some de) →
      getParam (parseParams w.location.search) qp = some raw →
      de raw = .error () →
      (register w sid prop qp cfg).2 = none ∧
      (register w sid prop qp cfg).1.stores = w.stores)
  ∧ (∀ (w : World2) (sid prop qp : String) (cfg : RegisterConfig)
       (ser : Value → String) (de : String → Except Unit Value) (raw : String),
      w.engine.fields.any (fun f => f.queryParam == qp) = false →
      resolveFor2 w sid prop cfg = (some ser, some de) →
      getParam (parseParams w.location.search) qp = some raw →
      de raw = .error () →
      (registerField w sid prop qp cfg).2 = some .deserializationError ∧
      (registerField w sid prop qp cfg).1.stores = w.stores) := by
  constructor
  · intro w sid prop qp cfg ser de raw hdup hres hurl hde
    rw [register_success_eq w sid prop qp cfg ser de (by simp [hdup]) hres]
    refine ⟨rfl, ?_⟩
    simp only [hurl, hde]
  · intro w sid prop qp cfg ser de raw hdup hres hurl hde
    rw [registerField_success_eq w sid prop qp cfg ser de (by simp [hdup]) hres]
    rw [registerFieldFinish_hydrate_error _ sid prop _ raw hurl hde]
    exact ⟨rfl, rfl⟩

/-- Witness for C5 (amended) at concrete inputs: a throwing deserializer
with `?x=boom` in the URL; the debounced call returns no error and
leaves the store alone, the throttled call returns the error. -/
theorem c5_hydration_error_policy_witness :
    ((register failWorldD "s" "p" "x" failConfig).2 = none ∧
      (register failWorldD "s" "p" "x" failConfig).1.stores = failWorldD.stores)
    ∧ ((registerField failWorld "s" "p" "x" failConfig).2 = some .deserializationError ∧
      (registerField failWorld "s" "p" "x" failConfig).1.stores = failWorld.stores) :=
  ⟨c5_hydration_error_policy.1 failWorldD "s" "p" "x" failConfig Value.jsString
      (fun _ => .error ()) "boom" rfl rfl rfl rfl,
   c5_hydration_error_policy.2 failWorld "s" "p" "x" failConfig Value.jsString
      (fun _ => .error ()) "boom" rfl rfl rfl rfl⟩

/-- Counterexample to C10 as stated: in the throttled variant a
hydration deserialization error escapes `registerField` after the field
entry has already been added, so the engine's field map does contain a
new entry for the query parameter although the call raised. -/
theorem c10_counterexample :
    (registerField failWorld "s" "p" "x" failConfig).2 = some .deserializationError
    ∧ (registerField failWorld "s" "p" "x" failConfig).1.engine.fields.map
        (fun f => f.queryParam) = ["x"] := ⟨rfl, rfl⟩

/-- Claim C10, amended: in the debounced variant every error leaves the
world — field map, interceptors, stores, location, history — exactly as
it was.  In the throttled variant this holds for the duplicate-parameter
and missing-serializer errors, but a hydration deserialization error
escapes after the field entry has been appended to the map; even then
no interceptor is installed and the store, location and history are
untouched. -/
theorem c10_register_atomicity :
    (∀ (w : World) (sid prop qp : String) (cfg : RegisterConfig) (e : RegisterError),
      (register w sid prop qp cfg).2 = some e → (register w sid prop qp cfg).1 = w)
  ∧ (∀ (w : World2) (sid prop qp : String) (cfg : RegisterConfig) (q : String),
      (registerField w sid prop qp cfg).2 = some (.duplicateParameter q) →
      (registerField w sid prop qp cfg).1 = w)
  ∧ (∀ (w : World2) (sid prop qp : String) (cfg : RegisterConfig) (p2 : String),
      (registerField w sid prop qp cfg).2 = some (.missingSerializer p2) →
      (registerField w sid prop qp cfg).1 = w)
  ∧ (∀ (w : World2) (sid prop qp : String) (cfg : RegisterConfig),
      (registerField w sid prop qp cfg).2 = some .deserializationError →
      (registerField w sid prop qp cfg).1.stores = w.stores ∧
      (registerField w sid prop qp cfg).1.engine.intercepted = w.engine.intercepted ∧
      (registerField w sid prop qp cfg).1.engine.fields.map (fun f => f.queryParam) =
        w.engine.fields.map (fun f => f.queryParam) ++ [qp] ∧
      (registerField w sid prop qp cfg).1.location = w.location ∧
      (registerField w sid prop qp cfg).1.history = w.history) := by
  refine ⟨?_, ?_, ?_, ?_⟩
  · intro w sid prop qp cfg e h
    by_cases hdup : w.engine.fields.any (fun f => f.queryParam == qp) = true
    · rw [register_dup_eq w sid prop qp cfg hdup]
    · rcases hres : resolveFor w sid prop cfg with ⟨cs, cd⟩
      cases cs with
      | some ser =>
        cases cd with
        | some de =>
          rw [register_success_eq w sid prop qp cfg ser de hdup hres] at h
          simp at h
        | none =>
          rw [register_missing_eq w sid prop qp cfg _ _ hdup hres (Or.inr rfl)]
      | none =>
        rw [register_missing_eq w sid prop qp cfg _ _ hdup hres (Or.inl rfl)]
  · intro w sid prop qp cfg q h
    by_cases hdup : w.engine.fields.any (fun f => f.queryParam == qp) = true
    · rw [registerField_dup_eq w sid prop qp cfg hdup]
    · rcases hres : resolveFor2 w sid prop cfg with ⟨cs, cd⟩
      cases cs with
      | some ser =>
        cases cd with
        | some de =>
          rw [registerField_success_eq w sid prop qp cfg ser de hdup hres] at h
          rcases registerFieldFinish_shape
              { w with engine := { w.engine with fields := w.engine.fields ++
                  [{ store := sid, property := prop, queryParam := qp,
                     defaultValue :=
                       match cfg.defaultValue with
                       | some v => v
                       | none => getStore w.stores sid prop,
                     serialize := ser, deserialize := de }] } }
              sid prop
              { store := sid, property := prop, queryParam := qp,
                defaultValue :=
                  match cfg.defaultValue with
                  | some v => v
                  | none => getStore w.stores sid prop,
                serialize := ser, deserialize := de } with h2 | h2
          · rw [h2] at h
            exact Option.noConfusion h
          · rw [h2] at h
            simp at h
        | none =>
          rw [registerField_missing_eq w sid prop qp cfg _ _ hdup hres (Or.inr rfl)]
      | none =>
        rw [registerField_missing_eq w sid prop qp cfg _ _ hdup hres (Or.inl rfl)]
  · intro w sid prop qp cfg p2 h
    by_cases hdup : w.engine.fields.any (fun f => f.queryParam == qp) = true
    · rw [registerField_dup_eq w sid prop qp cfg hdup]
    · rcases hres : resolveFor2 w sid prop cfg with ⟨cs, cd⟩
      cases cs with
      | some ser =>
        cases cd with
        | some de =>
          rw [registerField_success_eq w sid prop qp cfg ser de hdup hres] at h
          rcases registerFieldFinish_shape
              { w with engine := { w.engine with fields := w.engine.fields ++
                  [{ store := sid, property := prop, queryParam := qp,
                     defaultValue :=
                       match cfg.defaultValue with
                       | some v => v
                       | none => getStore w.stores sid prop,
                     serialize := ser, deserialize := de }] } }
              sid prop
              { store := sid, property := prop, queryParam := qp,
                defaultValue :=
                  match cfg.defaultValue with
                  | some v => v
                  | none => getStore w.stores sid prop,
                serialize := ser, deserialize := de } with h2 | h2
          · rw [h2] at h
            exact Option.noConfusion h
          · rw [h2] at h
            simp at h
        | none =>
          rw [registerField_missing_eq w sid prop qp cfg _ _ hdup hres (Or.inr rfl)]
      | none =>
        rw [registerField_missing_eq w sid prop qp cfg _ _ hdup hres (Or.inl rfl)]
  · intro w sid prop qp cfg h
    by_cases hdup : w.engine.fields.any (fun f => f.queryParam == qp) = true
    · rw [registerField_dup_eq w sid prop qp cfg hdup] at h
      simp at h
    · rcases hres : resolveFor2 w sid prop cfg with ⟨cs, cd⟩
      cases cs with
      | some ser =>
        cases cd with
        | some de =>
          rw [registerField_success_eq w sid prop qp cfg ser de hdup hres] at h ⊢
          unfold registerFieldFinish loadFromURLForField at h ⊢
          rcases hurl : getParam (parseParams w.location.search) qp with _ | raw
          · simp [hurl] at h
          · rcases hde : de raw with e2 | v
            · simp only [hurl, hde]
              simp [List.map_append]
            · simp [hurl, hde] at h
        | none =>
          rw [registerField_missing_eq w sid prop qp cfg _ _ hdup hres (Or.inr rfl)] at h
          simp at h
      | none =>
        rw [registerField_missing_eq w sid prop qp cfg _ _ hdup hres (Or.inl rfl)] at h
        simp at h

theorem resolveFor_auto_some (w : World) (sid prop : String) (cfg : RegisterConfig)
    (a : SerPair)
    (hauto : getAutoSerializer w.engine.serializers
      (cfg.defaultValue.getD (getStore w.stores sid prop)) = some a) :
    resolveFor w sid prop cfg =
      (some (cfg.serialize.getD a.serialize), some (cfg.deserialize.getD a.deserialize)) := by
  simp only [resolveFor]
  rw [hauto]
  unfold resolveHalves
  rcases cfg.serialize with _ | s <;> rcases cfg.deserialize with _ | d <;> simp

theorem resolveFor_auto_none (w : World) (sid prop : String) (cfg : RegisterConfig)
    (hauto : getAutoSerializer w.engine.serializers
      (cfg.defaultValue.getD (getStore w.stores sid prop)) = none) :
    resolveFor w sid prop cfg = (cfg.serialize, cfg.deserialize) := by
  simp only [resolveFor]
  rw [hauto]
  exact resolveHalves_none_auto _ _

theorem resolveFor2_auto_some (w : World2) (sid prop : String) (cfg : RegisterConfig)
    (a : Serializer)
    (hauto : getDefaultSerializer w.engine.defaultSerializers
      (getStore w.stores sid prop) = some a) :
    resolveFor2 w sid prop cfg =
      (some (cfg.serialize.getD a.serialize), some (cfg.deserialize.getD a.deserialize)) := by
  simp only [resolveFor2]
  rw [hauto]
  unfold resolveHalves
  rcases cfg.serialize with _ | s <;> rcases cfg.deserialize with _ | d <;> simp

theorem resolveFor2_auto_none (w : World2) (sid prop : String) (cfg : RegisterConfig)
    (hauto : getDefaultSerializer w.engine.defaultSerializers
      (getStore w.stores sid prop) = none) :
    resolveFor2 w sid prop cfg = (cfg.serialize, cfg.deserialize) := by
  simp only [resolveFor2]
  rw [hauto]
  exact resolveHalves_none_auto _ _

/-- Counterexample to C4 as stated: the throttled variant resolves the
automatic serializer from the store's current property value, not from
the configured default value.  Here `config.defaultValue` is an object
for which resolution fails and no config serializers are supplied, so
the claim demands `MissingSerializerError`; but because the store's
current value is a number, `registerField` succeeds. -/
theorem c4_counterexample :
    mismatchConfig.serialize = none
    ∧ mismatchConfig.deserialize = none
    ∧ mismatchConfig.defaultValue = some (Value.obj "Widget" "z")
    ∧ getDefaultSerializer mismatchWorld.engine.defaultSerializers (Value.obj "Widget" "z") = none
    ∧ (registerField mismatchWorld "s" "p" "q" mismatchConfig).2 = none :=
  ⟨rfl, rfl, rfl, rfl, rfl⟩

/-- Claim C4, amended: both halves of the serializer pair come from the
config when both are given.  Otherwise missing halves are filled from
the automatic lookup — in the debounced variant resolved for the
default value (`config.defaultValue` if given, else the store's current
property value), but in the throttled variant always resolved for the
store's current property value, ignoring `config.defaultValue`.  In a
duplicate-free call, `MissingSerializerError` naming the property is
raised exactly when the config pair is incomplete and that variant's
automatic lookup fails. -/
theorem c4_serializer_resolution :
    (∀ (w : World) (sid prop qp : String) (cfg : RegisterConfig),
      ¬ (w.engine.fields.any (fun f => f.queryParam == qp)) = true →
      ((register w sid prop qp cfg).2 = some (.missingSerializer prop) ↔
        (cfg.serialize.isNone ∨ cfg.deserialize.isNone) ∧
        getAutoSerializer w.engine.serializers
          (cfg.defaultValue.getD (getStore w.stores sid prop)) = none))
  ∧ (∀ (w : World2) (sid prop qp : String) (cfg : RegisterConfig),
      ¬ (w.engine.fields.any (fun f => f.queryParam == qp)) = true →
      ((registerField w sid prop qp cfg).2 = some (.missingSerializer prop) ↔
        (cfg.serialize.isNone ∨ cfg.deserialize.isNone) ∧
        getDefaultSerializer w.engine.defaultSerializers
          (getStore w.stores sid prop) = none))
  ∧ (∀ (w : World) (sid prop : String) (cfg : RegisterConfig)
       (s : Value → String) (d : String → Except Unit Value),
      cfg.serialize = some s → cfg.deserialize = some d →
      resolveFor w sid prop cfg = (some s, some d))
  ∧ (∀ (w : World2) (sid prop : String) (cfg : RegisterConfig)
       (s : Value → String) (d : String → Except Unit Value),
      cfg.serialize = some s → cfg.deserialize = some d →
      resolveFor2 w sid prop cfg = (some s, some d)) := by
  refine ⟨?_, ?_, ?_, ?_⟩
  · intro w sid prop qp cfg hdup
    constructor
    · intro h
      rcases hauto : getAutoSerializer w.engine.serializers
          (cfg.defaultValue.getD (getStore w.stores sid prop)) with _ | a
      · have hres := resolveFor_auto_none w sid prop cfg hauto
        rcases hcs : cfg.serialize with _ | s
        · exact ⟨Or.inl rfl, rfl⟩
        · rcases hcd : cfg.deserialize with _ | d
          · exact ⟨Or.inr rfl, rfl⟩
          · rw [register_success_eq w sid prop qp cfg s d hdup
              (by rw [hres, hcs, hcd])] at h
            simp at h
      · rw [register_success_eq w sid prop qp cfg _ _ hdup
          (resolveFor_auto_some w sid prop cfg a hauto)] at h
        simp at h
    · intro h
      rcases h with ⟨hhalf, hauto⟩
      have hres := resolveFor_auto_none w sid prop cfg hauto
      rw [register_missing_eq w sid prop qp cfg cfg.serialize cfg.deserialize hdup hres
        (by rcases hhalf with h1 | h1
            · exact Or.inl (Option.isNone_iff_eq_none.mp h1)
            · exact Or.inr (Option.isNone_iff_eq_none.mp h1))]
  · intro w sid prop qp cfg hdup
    constructor
    · intro h
      rcases hauto : getDefaultSerializer w.engine.defaultSerializers
          (getStore w.stores sid prop) with _ | a
      · have hres := resolveFor2_auto_none w sid prop cfg hauto
        rcases hcs : cfg.serialize with _ | s
        · exact ⟨Or.inl rfl, rfl⟩
        · rcases hcd : cfg.deserialize with _ | d
          · exact ⟨Or.inr rfl, rfl⟩
          · rw [registerField_success_eq w sid prop qp cfg s d hdup
              (by rw [hres, hcs, hcd])] at h
            rcases registerFieldFinish_shape
                { w with engine := { w.engine with fields := w.engine.fields ++
                    [{ store := sid, property := prop, queryParam := qp,
                       defaultValue :=
                         match cfg.defaultValue with
                         | some v => v
                         | none => getStore w.stores sid prop,
                       serialize := s, deserialize := d }] } }
                sid prop
                { store := sid, property := prop, queryParam := qp,
                  defaultValue :=
                    match cfg.defaultValue with
                    | some v => v
                    | none => getStore w.stores sid prop,
                  serialize := s, deserialize := d } with h2 | h2
            · rw [h2] at h
              exact Option.noConfusion h
            · rw [h2] at h
              simp at h
      · rw [registerField_success_eq w sid prop qp cfg _ _ hdup
          (resolveFor2_auto_some w sid prop cfg a hauto)] at h
        rcases registerFieldFinish_shape
            { w with engine := { w.engine with fields := w.engine.fields ++
                [{ store := sid, property := prop, queryParam := qp,
                   defaultValue :=
                     match cfg.defaultValue with
                     | some v => v
                     | none => getStore w.stores sid prop,
                   serialize := cfg.serialize.getD a.serialize,
                   deserialize := cfg.deserialize.getD a.deserialize }] } }
            sid prop
            { store := sid, property := prop, queryParam := qp,
              defaultValue :=
                match cfg.defaultValue with
                | some v => v
                | none => getStore w.stores sid prop,
              serialize := cfg.serialize.getD a.serialize,
              deserialize := cfg.deserialize.getD a.deserialize } with h2 | h2
        · rw [h2] at h
          exact Option.noConfusion h
        · rw [h2] at h
          simp at h
    · intro h
      rcases h with ⟨hhalf, hauto⟩
      have hres := resolveFor2_auto_none w sid prop cfg hauto
      rw [registerField_missing_eq w sid prop qp cfg cfg.serialize cfg.deserialize hdup hres
        (by rcases hhalf with h1 | h1
            · exact Or.inl (Option.isNone_iff_eq_none.mp h1)
            · exact Or.inr (Option.isNone_iff_eq_none.mp h1))]
  · intro w sid prop cfg s d hs hd
    rcases hauto : getAutoSerializer w.engine.serializers
        (cfg.defaultValue.getD (getStore w.stores sid prop)) with _ | a
    · rw [resolveFor_auto_none w sid prop cfg hauto, hs, hd]
    · rw [resolveFor_auto_some w sid prop cfg a hauto, hs, hd]
      rfl
  · intro w sid prop cfg s d hs hd
    rcases hauto : getDefaultSerializer w.engine.defaultSerializers
        (getStore w.stores sid prop) with _ | a
    · rw [resolveFor2_auto_none w sid prop cfg hauto, hs, hd]
    · rw [resolveFor2_auto_some w sid prop cfg a hauto, hs, hd]
      rfl

/-- Witness for C4 (amended) at concrete inputs: an object-valued store
property with no serializers raises the missing-serializer error in
both variants, and an explicitly supplied pair is used as given. -/
theorem c4_serializer_resolution_witness :
    (register objWorldD "s" "p" "q" {}).2 = some (.missingSerializer "p")
    ∧ (registerField objWorld2 "s" "p" "q" {}).2 = some (.missingSerializer "p")
    ∧ resolveFor failWorldD "s" "p" failConfig =
        (some Value.jsString, some (fun _ => .error ()))
    ∧ resolveFor2 failWorld "s" "p" failConfig =
        (some Value.jsString, some (fun _ => .error ())) :=
  ⟨(c4_serializer_resolution.1 objWorldD "s" "p" "q" {} (by decide)).mpr ⟨Or.inl rfl, rfl⟩,
   (c4_serializer_resolution.2.1 objWorld2 "s" "p" "q" {} (by decide)).mpr ⟨Or.inl rfl, rfl⟩,
   c4_serializer_resolution.2.2.1 failWorldD "s" "p" failConfig Value.jsString
     (fun _ => .error ()) rfl rfl,
   c4_serializer_resolution.2.2.2 failWorld "s" "p" failConfig Value.jsString
     (fun _ => .error ()) rfl rfl⟩

/-- Witness for C10 (amended) at concrete inputs: a duplicate in each
variant, a missing serializer, and the throttled hydration error whose
side effect is exactly one new field-map entry. -/
theorem c10_register_atomicity_witness :
    (register hydratedWorld "s2" "other" "counter" {}).1 = hydratedWorld
    ∧ (registerField twoFieldWorld "s" "a2" "a" {}).1 = twoFieldWorld
    ∧ (registerField objWorld2 "s" "p" "q" {}).1 = objWorld2
    ∧ ((registerField failWorld "s" "p" "x" failConfig).1.stores = failWorld.stores ∧
       (registerField failWorld "s" "p" "x" failConfig).1.engine.intercepted =
         failWorld.engine.intercepted ∧
       (registerField failWorld "s" "p" "x" failConfig).1.engine.fields.map
         (fun f => f.queryParam) =
         failWorld.engine.fields.map (fun f => f.queryParam) ++ ["x"] ∧
       (registerField failWorld "s" "p" "x" failConfig).1.location = failWorld.location ∧
       (registerField failWorld "s" "p" "x" failConfig).1.history = failWorld.history) :=
  ⟨c10_register_atomicity.1 hydratedWorld "s2" "other" "counter" {}
     (.duplicateParameter "counter") (by decide),
   c10_register_atomicity.2.1 twoFieldWorld "s" "a2" "a" {} "a" (by decide),
   c10_register_atomicity.2.2.1 objWorld2 "s" "p" "q" {} "p" (by decide),
   c10_register_atomicity.2.2.2 failWorld "s" "p" "x" failConfig (by decide)⟩

theorem applyUrlUpdate_lastUpdateTime (w : World) (now : Nat) :
    (applyUrlUpdate w now).engine.lastUpdateTime = now := by
  simp only [applyUrlUpdate]
  split <;> rfl

theorem applyUrlUpdate_timer (w : World) (now : Nat) :
    (applyUrlUpdate w now).engine.updateTimer = w.engine.updateTimer := by
  simp only [applyUrlUpdate]
  split <;> rfl

/-- Claim C6 (code bug in the debounced variant): on `hydratedWorld`
the desired parameter set equals the current URL's parameter set (both
render `counter=1`), so the claim — and the code's own comment, "Only
replace state if it's truly changed" — demand that no history write
happen; yet the flush still records one, because the guard compares the
path-relative new URL `/p?counter=1` against
`location.href.split('?')[0] + location.search`, which retains the
origin (`https://example.com/p?counter=1`) and thus never matches.  The
bookkeeping half of the claim does hold: `lastUpdateTime` is set. -/
theorem c6_noop_flush_bug :
    buildQueryString hydratedWorld.engine.fields hydratedWorld.stores = "counter=1"
    ∧ paramsToString (parseParams hydratedWorld.location.search) = "counter=1"
    ∧ hydratedWorld.history = []
    ∧ (applyUrlUpdate hydratedWorld 1000).history = ["/p?counter=1"]
    ∧ (applyUrlUpdate hydratedWorld 1000).engine.lastUpdateTime = 1000 :=
  ⟨rfl, rfl, rfl, rfl, rfl⟩

/-- Counterexample to C7 as stated: in the throttled variant each field
owns a timer, so after in-window mutations to two different fields, two
pending URL writes exist at the same instant — not at most one. -/
theorem c7_counterexample :
    ¬ (((run2 twoFieldWorld pendingBurstEvents).engine.fields.filter
        (fun f => f.updateTimer.isSome)).length ≤ 1) := by decide

theorem scheduleUrlUpdate_now (w : World) (now : Nat)
    (h : w.engine.lastUpdateTime = 0 ∨
      w.engine.debounceDelay ≤ now - w.engine.lastUpdateTime) :
    scheduleUrlUpdate w now =
      applyUrlUpdate { w with engine := { w.engine with updateTimer := none } } now := by
  simp only [scheduleUrlUpdate]
  rw [if_pos h]

theorem scheduleUrlUpdate_defer (w : World) (now : Nat)
    (h1 : w.engine.lastUpdateTime ≠ 0)
    (h2 : now - w.engine.lastUpdateTime < w.engine.debounceDelay) :
    scheduleUrlUpdate w now =
      { w with engine := { w.engine with
          updateTimer := some (now + (w.engine.debounceDelay -
            (now - w.engine.lastUpdateTime))) } } := by
  simp only [scheduleUrlUpdate]
  rw [if_neg (not_or.mpr ⟨h1, not_le.mpr h2⟩)]

/-- Claim C7, amended: a dirty signal with `lastFlushTime` unset or
`elapsed ≥ delay` flushes immediately, recording `lastFlushTime = now`;
otherwise the pending timer of that scheduler slot is replaced by a
single timer armed for `delay - elapsed`.  The "at most one pending
write" guarantee is per scheduler slot: engine-wide in the debounced
variant (one `updateTimer`), but only per field in the throttled
variant, where several fields can hold pending timers at once. -/
theorem c7_scheduling_rule :
    (∀ (w : World) (now : Nat),
      w.engine.lastUpdateTime = 0 ∨
        w.engine.debounceDelay ≤ now - w.engine.lastUpdateTime →
      scheduleUrlUpdate w now =
        applyUrlUpdate { w with engine := { w.engine with updateTimer := none } } now ∧
      (scheduleUrlUpdate w now).engine.lastUpdateTime = now ∧
      (scheduleUrlUpdate w now).engine.updateTimer = none)
  ∧ (∀ (w : World) (now : Nat),
      w.engine.lastUpdateTime ≠ 0 →
      now - w.engine.lastUpdateTime < w.engine.debounceDelay →
      scheduleUrlUpdate w now =
        { w with engine := { w.engine with
            updateTimer := some (now + (w.engine.debounceDelay -
              (now - w.engine.lastUpdateTime))) } })
  ∧ (∀ (w : World2) (qp : String) (v : Value) (now : Nat) (field : FieldEntry),
      w.engine.fields.find? (fun f => f.queryParam == qp) = some field →
      (paramsToString (computeNewParams field (parseParams w.location.search) v) ==
        paramsToString (parseParams w.location.search)) = false →
      (field.lastUpdateTime = 0 ∨ w.engine.throttleDelay ≤ now - field.lastUpdateTime) →
      interceptChange w qp v now =
        updateUrl w qp (computeNewParams field (parseParams w.location.search) v) now)
  ∧ (∀ (w : World2) (qp : String) (v : Value) (now : Nat) (field : FieldEntry),
      w.engine.fields.find? (fun f => f.queryParam == qp) = some field →
      (paramsToString (computeNewParams field (parseParams w.location.search) v) ==
        paramsToString (parseParams w.location.search)) = false →
      field.lastUpdateTime ≠ 0 →
      now - field.lastUpdateTime < w.engine.throttleDelay →
      interceptChange w qp v now =
        { w with engine := { w.engine with fields := w.engine.fields.map (fun f =>
            if f.queryParam == qp then
              { f with updateTimer := some (now + (w.engine.throttleDelay -
                  (now - field.lastUpdateTime)),
                  computeNewParams field (parseParams w.location.search) v) }
            else f) } }) := by
  refine ⟨?_, ?_, ?_, ?_⟩
  · intro w now h
    have heq := scheduleUrlUpdate_now w now h
    refine ⟨heq, ?_, ?_⟩
    · rw [heq, applyUrlUpdate_lastUpdateTime]
    · rw [heq, applyUrlUpdate_timer]
  · intro w now h1 h2
    exact scheduleUrlUpdate_defer w now h1 h2
  · intro w qp v now field hfind hne hbranch
    simp [interceptChange, hfind, hne]
    intro hA hB
    rcases hbranch with h | h
    · exact absurd h hA
    · exact absurd h (not_le.mpr hB)
  · intro w qp v now field hfind hne h1 h2
    simp [interceptChange, hfind, hne]
    intro hor
    rcases hor with h | h
    · exact absurd h h1
    · exact absurd h (not_le.mpr h2)

/-- Witness for C7 (amended) at concrete inputs: an immediate flush and
a deferred one in each variant, with the timer armed for the remaining
delay. -/
theorem c7_scheduling_rule_witness :
    ((scheduleUrlUpdate windowWorld 2000).engine.lastUpdateTime = 2000 ∧
     (scheduleUrlUpdate windowWorld 2000).engine.updateTimer = none)
    ∧ scheduleUrlUpdate windowWorld 1100 =
        { windowWorld with engine := { windowWorld.engine with
            updateTimer := some (1100 + (windowWorld.engine.debounceDelay -
              (1100 - windowWorld.engine.lastUpdateTime))) } }
    ∧ interceptChange midWindowWorld2 "a" (Value.num 1) 2000 =
        updateUrl midWindowWorld2 "a"
          (computeNewParams (throttledField "a" "a" 1000)
            (parseParams midWindowWorld2.location.search) (Value.num 1)) 2000
    ∧ interceptChange midWindowWorld2 "a" (Value.num 1) 1100 =
        { midWindowWorld2 with engine := { midWindowWorld2.engine with
            fields := midWindowWorld2.engine.fields.map (fun f =>
              if f.queryParam == "a" then
                { f with updateTimer := some (1100 +
                    (midWindowWorld2.engine.throttleDelay -
                      (1100 - (throttledField "a" "a" 1000).lastUpdateTime)),
                    computeNewParams (throttledField "a" "a" 1000)
                      (parseParams midWindowWorld2.location.search) (Value.num 1)) }
              else f) } } :=
  ⟨⟨(c7_scheduling_rule.1 windowWorld 2000 (Or.inr (by decide))).2.1,
    (c7_scheduling_rule.1 windowWorld 2000 (Or.inr (by decide))).2.2⟩,
   c7_scheduling_rule.2.1 windowWorld 1100 (by decide) (by decide),
   c7_scheduling_rule.2.2.1 midWindowWorld2 "a" (Value.num 1) 2000
     (throttledField "a" "a" 1000) rfl (by decide) (Or.inr (by decide)),
   c7_scheduling_rule.2.2.2 midWindowWorld2 "a" (Value.num 1) 1100
     (throttledField "a" "a" 1000) rfl (by decide) (by decide) (by decide)⟩

theorem toList_append (a b : String) : (a ++ b).toList = a.toList ++ b.toList :=
  String.data_append a b

theorem renderUrl_head (loc : Location) (qs : String)
    (hpath : loc.pathname.toList.head? = some '/') :
    (renderUrl loc.pathname qs).toList.head? = some '/' := by
  unfold renderUrl
  by_cases hq : qs = ""
  · rw [if_pos hq]
    exact hpath
  · rw [if_neg hq, toList_append, toList_append, List.head?_append, List.head?_append, hpath]
    rfl

theorem splitBeforeQuery_head (s : String) (c : Char) (hc : s.toList.head? = some c)
    (hq : c ≠ '?') : (splitBeforeQuery s).toList.head? = some c := by
  show (s.toList.takeWhile (fun c => c ≠ '?')).head? = some c
  rcases hs : s.toList with _ | ⟨c0, rest⟩
  · rw [hs] at hc
    exact Option.noConfusion hc
  · rw [hs] at hc
    have hc0 : c0 = c := by simpa using hc
    subst hc0
    rw [List.takeWhile_cons_of_pos (by simpa using hq)]
    rfl

theorem renderUrl_ne_split (loc : Location) (qs : String) (c : Char)
    (horig : loc.origin.toList.head? = some c) (hc1 : c ≠ '/') (hc2 : c ≠ '?')
    (hpath : loc.pathname.toList.head? = some '/') :
    renderUrl loc.pathname qs ≠ splitBeforeQuery loc.href ++ loc.search := by
  intro heq
  have h1 := renderUrl_head loc qs hpath
  have hhref : loc.href.toList.head? = some c := by
    unfold Location.href
    rw [toList_append, toList_append, List.head?_append, List.head?_append, horig]
    rfl
  have h2 : (splitBeforeQuery loc.href ++ loc.search).toList.head? = some c := by
    rw [toList_append, List.head?_append, splitBeforeQuery_head loc.href c hhref hc2]
    rfl
  rw [heq, h2] at h1
  exact hc1 (Option.some.inj h1)

/-- The invariant maintained by in-window mutations on the debounced
engine: bookkeeping, fields, delay, location and history stay fixed,
and the single pending timer, when armed, points at the end of the
current window. -/
def WindowInv (w0 w : World) (L : Nat) : Prop :=
  w.engine.lastUpdateTime = L ∧
  (w.engine.updateTimer = none ∨
    w.engine.updateTimer = some (L + w0.engine.debounceDelay)) ∧
  w.engine.fields = w0.engine.fields ∧
  w.engine.debounceDelay = w0.engine.debounceDelay ∧
  w.location = w0.location ∧
  w.history = w0.history

theorem windowInv_mutate (w0 w : World) (L : Nat) (sid prop : String) (v : Value) (t : Nat)
    (hinv : WindowInv w0 w L) (hL0 : L ≠ 0) (ht1 : L ≤ t)
    (ht2 : t - L < w0.engine.debounceDelay) :
    WindowInv w0 (mutate w sid prop v t) L := by
  obtain ⟨h1, h2, h3, h4, h5, h6⟩ := hinv
  simp only [mutate]
  split
  · rw [scheduleUrlUpdate_defer _ t
      (by show w.engine.lastUpdateTime ≠ 0; rw [h1]; exact hL0)
      (by show t - w.engine.lastUpdateTime < w.engine.debounceDelay; rw [h1, h4]; exact ht2)]
    refine ⟨h1, Or.inr ?_, h3, h4, h5, h6⟩
    show some (t + (w.engine.debounceDelay - (t - w.engine.lastUpdateTime))) =
      some (L + w0.engine.debounceDelay)
    rw [h1, h4]
    have harith : t + (w0.engine.debounceDelay - (t - L)) = L + w0.engine.debounceDelay := by
      omega
    rw [harith]
  · exact ⟨h1, h2, h3, h4, h5, h6⟩

theorem windowInv_run (w0 : World) (muts : List (String × String × Value × Nat)) :
    ∀ (w : World) (L : Nat), WindowInv w0 w L → L ≠ 0 →
    (∀ m ∈ muts, L ≤ m.2.2.2 ∧ m.2.2.2 - L < w0.engine.debounceDelay) →
    WindowInv w0 (run w (mutEvents muts)) L := by
  induction muts with
  | nil => intro w L hinv _ _; exact hinv
  | cons m rest ih =>
    intro w L hinv hL0 hmuts
    show WindowInv w0 (run (mutate w m.1 m.2.1 m.2.2.1 m.2.2.2) (mutEvents rest)) L
    exact ih (mutate w m.1 m.2.1 m.2.2.1 m.2.2.2) L
      (windowInv_mutate w0 w L m.1 m.2.1 m.2.2.1 m.2.2.2 hinv hL0
        (hmuts m (List.mem_cons_self m rest)).1 (hmuts m (List.mem_cons_self m rest)).2)
      hL0 (fun m2 hm => hmuts m2 (List.mem_cons_of_mem m hm))

theorem run_append (w : World) (es1 es2 : List Event) :
    run w (es1 ++ es2) = run (run w es1) es2 := by
  induction es1 generalizing w with
  | nil => rfl
  | cons e rest ih =>
    cases e with
    | mutate sid prop v t => exact ih (mutate w sid prop v t)
    | fire => exact ih (fireTimer w)

theorem fireTimer_of_inv (w0 w : World) (L : Nat) (c : Char)
    (hinv : WindowInv w0 w L)
    (horig : w0.location.origin.toList.head? = some c) (hc1 : c ≠ '/') (hc2 : c ≠ '?')
    (hpath : w0.location.pathname.toList.head? = some '/') :
    (fireTimer w).history = w0.history ++
      (if w.engine.updateTimer.isSome then
        [renderUrl w0.location.pathname (buildQueryString w0.engine.fields w.stores)]
       else []) := by
  obtain ⟨h1, h2, h3, h4, h5, h6⟩ := hinv
  rcases h2 with h2 | h2
  · unfold fireTimer
    rw [h2]
    simp [h6]
  · unfold fireTimer
    rw [h2]
    have hguard : renderUrl w.location.pathname (buildQueryString w.engine.fields w.stores)
        ≠ splitBeforeQuery w.location.href ++ w.location.search := by
      rw [h5]
      exact renderUrl_ne_split w0.location (buildQueryString w.engine.fields w.stores) c
        horig hc1 hc2 hpath
    show (applyUrlUpdate w (L + w0.engine.debounceDelay)).history = _
    rw [applyUrlUpdate_write w (L + w0.engine.debounceDelay) hguard]
    show w.history ++ [renderUrl w.location.pathname
        (buildQueryString w.engine.fields w.stores)] = _
    rw [h3, h5, h6]
    rfl

/-- Counterexample to C8 as stated: in the throttled variant two
mutations of different fields one millisecond apart — well inside one
delay window — produce two URL writes, the first carrying an
intermediate state. -/
theorem c8_counterexample :
    (run2 twoFieldWorld burstEvents).history = ["/p?a=1", "/p?a=1&b=2"]
    ∧ (run2 twoFieldWorld burstEvents).history.length ≠ 1 :=
  ⟨rfl, by decide⟩

/-- Claim C8, amended: in the debounced variant, once a flush has
happened (`lastUpdateTime` set) and no timer is pending, any burst of
mutations whose times fall inside the current delay window performs no
URL write itself and leaves the location unchanged; the subsequent
timer firing performs exactly one write — rendered from the final state
of all fields at flush time — when the burst armed the timer, and none
otherwise.  The throttled variant gives no such engine-wide guarantee:
fields flush independently, and a fresh field writes immediately. -/
theorem c8_burst_coalescing (w : World) (muts : List (String × String × Value × Nat))
    (L : Nat) (c : Char)
    (hL : w.engine.lastUpdateTime = L) (hL0 : L ≠ 0)
    (htimer : w.engine.updateTimer = none)
    (hmuts : ∀ m ∈ muts, L ≤ m.2.2.2 ∧ m.2.2.2 - L < w.engine.debounceDelay)
    (horig : w.location.origin.toList.head? = some c) (hc1 : c ≠ '/') (hc2 : c ≠ '?')
    (hpath : w.location.pathname.toList.head? = some '/') :
    (run w (mutEvents muts)).history = w.history
    ∧ (run w (mutEvents muts)).location = w.location
    ∧ (run w (mutEvents muts ++ [Event.fire])).history =
        w.history ++
          (if (run w (mutEvents muts)).engine.updateTimer.isSome then
            [renderUrl w.location.pathname
              (buildQueryString w.engine.fields (run w (mutEvents muts)).stores)]
           else []) := by
  have hinv0 : WindowInv w w L := ⟨hL, Or.inl htimer, rfl, rfl, rfl, rfl⟩
  have hinv := windowInv_run w muts w L hinv0 hL0 hmuts
  obtain ⟨k1, k2, k3, k4, k5, k6⟩ := hinv
  refine ⟨k6, k5, ?_⟩
  rw [run_append]
  exact fireTimer_of_inv w (run w (mutEvents muts)) L c ⟨k1, k2, k3, k4, k5, k6⟩
    horig hc1 hc2 hpath

/-- Witness for C8 (amended) at concrete inputs: two mutations of
`counter` at t = 1100 and t = 1200 inside the window opened at
t = 1000; no write happens during the burst and the single flush at the
window end reflects the final value. -/
theorem c8_burst_coalescing_witness :
    (run windowWorld (mutEvents windowMuts)).history = windowWorld.history
    ∧ (run windowWorld (mutEvents windowMuts)).location = windowWorld.location
    ∧ (run windowWorld (mutEvents windowMuts ++ [Event.fire])).history =
        windowWorld.history ++
          (if (run windowWorld (mutEvents windowMuts)).engine.updateTimer.isSome then
            [renderUrl windowWorld.location.pathname
              (buildQueryString windowWorld.engine.fields
                (run windowWorld (mutEvents windowMuts)).stores)]
           else []) :=
  c8_burst_coalescing windowWorld windowMuts 1000 'h' rfl (by decide) rfl (by decide)
    (by decide) (by decide) (by decide) (by decide)

end MobxUrlSync












